import Mathlib

/-!
Verification of the skills-kit layer of the `events-skill` repository.

The development shallowly embeds the relevant JavaScript functions of
`skills-kit-2.0.js` (the `FilesReader` / `SkillsWriter` library) as Lean
definitions and proves the specified properties about them.  JavaScript
values that may be `undefined` are modelled as `Option`; a thrown
exception is modelled as `Except.error`; network responses consumed by
the polling loop are modelled as an explicit list of scripted responses.
-/

deriving instance DecidableEq for Except

/-! ## JavaScript primitive helpers -/

/-- Truthiness of a JS string-or-undefined value: `undefined` and the
empty string are falsy, every other string is truthy. -/
def jsTruthy : Option String → Bool
  | none => false
  | some s => s != ""

/-- JS `a || b` for a string-or-undefined `a` falling back to the
string-or-undefined `b` (used for `dataURIs[i] || entry.image_url`). -/
def jsOrString (a b : Option String) : Option String :=
  match a with
  | some s => if s != "" then some s else b
  | none => b

/-- JS `a || b` for a string-or-undefined `a` falling back to the plain
string `b` (used for `optionalCardTitle || cardTitle.FACES`). -/
def jsOrDefault (a : Option String) (b : String) : String :=
  match a with
  | some s => if s != "" then s else b
  | none => b

/-- JS `String.prototype.toLowerCase` (the inputs used here are ASCII,
where it agrees with per-character lowercasing). -/
def jsToLowerCase (s : String) : String := ⟨s.data.map Char.toLower⟩

/-- JS `String.prototype.trim` on the character list: drop leading and
trailing whitespace. -/
def jsTrimChars (l : List Char) : List Char :=
  ((l.dropWhile Char.isWhitespace).reverse.dropWhile Char.isWhitespace).reverse

/-- JS `String.prototype.trim`. -/
def jsTrim (s : String) : String := ⟨jsTrimChars s.data⟩

/-- JS `String.prototype.replace(pat, rep)` with a *string* pattern:
only the first occurrence of the pattern is replaced. -/
def replaceFirstChars (pat rep : List Char) : List Char → List Char
  | [] => []
  | c :: cs =>
    if pat.isPrefixOf (c :: cs) then rep ++ (c :: cs).drop pat.length
    else c :: replaceFirstChars pat rep cs

/-- JS `s.replace(pat, rep)` for a string pattern (first occurrence only). -/
def jsReplaceFirst (s pat rep : String) : String :=
  ⟨replaceFirstChars pat.data rep.data s.data⟩

/-- JS `Object.entries` applied to an array: the list of index/value
pairs, with the index rendered as a string key. -/
def objectEntries {α : Type} (l : List α) : List (String × α) :=
  l.enum.map (fun p => (toString p.1, p.2))

/-- Rendering of a JS string-or-undefined value inside a template
literal: `undefined` prints as the string "undefined". -/
def jsTemplateStr (o : Option String) : String := o.getD "undefined"

/-! ## Constants and enumerations (`skills-kit-2.0.js`) -/

def BOX_API_ENDPOINT : String := "https://api.box.com/2.0"

def MB_INTO_BYTES : Nat := 1048576

def boxVideoFormats : List String :=
  ["3g2", "3gp", "avi", "flv", "m2v", "m2ts", "m4v", "mkv", "mov", "mp4",
   "mpeg", "mpg", "ogg", "mts", "qt", "ts", "wmv"]

def boxAudioFormats : List String :=
  ["aac", "aif", "aifc", "aiff", "amr", "au", "flac", "m4a", "mp3", "ra", "wav", "wma"]

def boxImageFormats : List String :=
  ["ai", "bmp", "gif", "eps", "heic", "jpeg", "jpg", "png", "ps", "psd",
   "svg", "tif", "tiff", "dcm", "dicm", "dicom", "svs", "tga"]

def SkillsErrorEnum_FILE_PROCESSING_ERROR : String := "skills_file_processing_error"

def SkillsErrorEnum_INVALID_EVENT : String := "skills_invalid_event_error"

def SkillsErrorEnum_UNKNOWN : String := "skills_unknown_error"

/-- The values of the closed `SkillsErrorEnum` enumeration. -/
def SkillsErrorEnumValues : List String :=
  ["skills_file_processing_error", "skills_invalid_file_size_error",
   "skills_invalid_file_format_error", "skills_invalid_event_error",
   "skills_no_info_found", "skills_invocations_error",
   "skills_external_auth_error", "skills_billing_error", "skills_unknown_error"]

/-- The values of the closed `usageUnit` enumeration. -/
def usageUnitValues : List String := ["files", "seconds", "pages", "words"]

/-- The values of the closed `skillInvocationStatus` enumeration.  Note
that the `PENDING` member carries the string value
`"skills_pending_status"`, not `"pending"`. -/
def skillInvocationStatusValues : List String :=
  ["invoked", "processing", "skills_pending_status", "transient_failure",
   "permanent_failure", "success"]

/-- The JS error value thrown by a property access on `undefined` (a
`TypeError`); all such failures are collapsed to this one tag. -/
def JS_TYPE_ERROR : String := "TypeError"

/-! ## File format and type classification -/

/-- Node `path.extname`: the extension of the last path component, from
its last dot (inclusive) to the end; empty when the component has no dot
or only a leading dot. -/
def pathExtname (p : String) : String :=
  let base := (p.data.reverse.takeWhile (fun c => c != '/')).reverse
  let afterDot := base.reverse.takeWhile (fun c => c != '.')
  if afterDot.length = base.length then ""
  else if afterDot.length + 1 = base.length then ""
  else ⟨'.' :: afterDot.reverse⟩

/-- Lodash `trimStart(s, chars)`: remove every leading character of `s`
that occurs in `chars`. -/
def lodashTrimStart (s chars : String) : String :=
  ⟨s.data.dropWhile (fun c => chars.data.contains c)⟩

/-- `getFileFormat`: lowercased extension of the file name without the
leading dot. -/
def getFileFormat (fileName : String) : String :=
  lodashTrimStart (jsToLowerCase (pathExtname fileName)) "."

/-- `getFileType`: membership lookup in the three fixed extension sets,
audio first, then image, then video; everything else is DOCUMENT. -/
def getFileType (fileFormat : String) : String :=
  if fileFormat ∈ boxAudioFormats then "AUDIO"
  else if fileFormat ∈ boxImageFormats then "IMAGE"
  else if fileFormat ∈ boxVideoFormats then "VIDEO"
  else "DOCUMENT"

/-! ## Event parsing (`FilesReader` constructor) -/

structure JsSkill where
  id : Option String := none
deriving DecidableEq

structure JsSource where
  id : Option String := none
  name : Option String := none
  size : Option Nat := none
deriving DecidableEq

structure JsAccessToken where
  access_token : Option String := none
deriving DecidableEq

structure JsTokens where
  read : Option JsAccessToken := none
  write : Option JsAccessToken := none
deriving DecidableEq

/-- The inbound event body, with every field optional: the constructor
performs no presence validation of its own. -/
structure EventBody where
  id : Option String := none
  skill : Option JsSkill := none
  source : Option JsSource := none
  token : Option JsTokens := none
deriving DecidableEq

/-- The record produced by `FilesReader` / `getFileContext`.  Fields the
constructor reads without any guard stay `Option`-valued: they are simply
`undefined` when absent from the event. -/
structure FileContext where
  requestId : Option String
  skillId : String
  fileId : Option String
  fileName : String
  fileSize : Option Nat
  fileFormat : String
  fileType : String
  fileDownloadURL : String
  fileReadToken : Option String
  fileWriteToken : Option String
deriving DecidableEq

/-- The `FilesReader` constructor.  Property accesses on an absent
(`undefined`) object throw a plain `TypeError`:
`eventBody.skill.id.toString()` throws when `skill` or `skill.id` is
absent, `eventBody.source.id` throws when `source` is absent,
`path.extname(fileName)` throws when `source.name` is absent, and
`eventBody.token.read.access_token` / `...write.access_token` throw when
`token` or the respective sub-object is absent.  No branch throws the
typed `SkillsErrorEnum.INVALID_EVENT` error. -/
def FilesReader (eventBody : EventBody) : Except String FileContext :=
  match eventBody.skill with
  | none => Except.error JS_TYPE_ERROR
  | some sk =>
    match sk.id with
    | none => Except.error JS_TYPE_ERROR
    | some skillId =>
      match eventBody.source with
      | none => Except.error JS_TYPE_ERROR
      | some src =>
        match src.name with
        | none => Except.error JS_TYPE_ERROR
        | some fileName =>
          match eventBody.token with
          | none => Except.error JS_TYPE_ERROR
          | some tk =>
            match tk.read with
            | none => Except.error JS_TYPE_ERROR
            | some readTok =>
              match tk.write with
              | none => Except.error JS_TYPE_ERROR
              | some writeTok =>
                Except.ok
                  { requestId := eventBody.id
                    skillId := skillId
                    fileId := src.id
                    fileName := fileName
                    fileSize := src.size
                    fileFormat := getFileFormat fileName
                    fileType := getFileType (getFileFormat fileName)
                    fileDownloadURL :=
                      BOX_API_ENDPOINT ++ "/files/" ++ jsTemplateStr src.id ++
                        "/content?access_token=" ++ jsTemplateStr readTok.access_token
                    fileReadToken := readTok.access_token
                    fileWriteToken := writeTok.access_token }

/-! ## Representation polling -/

/-- One representation-info response: its `status.state` string and its
`content.url_template`. -/
structure RepEntry where
  state : String
  url_template : String
deriving DecidableEq

/-- Outcome of one run of the polling function: the representation info
it returned, or the error its promise rejected with. -/
inductive PollOutcome where
  | returned (info : RepEntry)
  | threw (e : String)
deriving DecidableEq

/-- `pollRepresentationInfo` run against a scripted list of responses,
one per query it would issue.  `success`, `viewable` and `error` states
make it return the info, and any unrecognized state throws the
file-processing error.  On `none`/`pending` the source executes
`Promise.delay(1000).then(...)` — but the module never imports bluebird
and the native `Promise` has no `delay` method, so this branch throws
`TypeError: Promise.delay is not a function` and the promise rejects:
no delay elapses, no re-query is issued, and only the first scripted
response is ever requested. -/
def pollRepresentationInfo : List RepEntry → Option PollOutcome
  | [] => none
  | info :: _rest =>
    if info.state = "success" ∨ info.state = "viewable" ∨ info.state = "error" then
      some (PollOutcome.returned info)
    else if info.state = "none" ∨ info.state = "pending" then
      some (PollOutcome.threw JS_TYPE_ERROR)
    else
      some (PollOutcome.threw SkillsErrorEnum_FILE_PROCESSING_ERROR)

/-- The caller side in `getBasicFormatFileURL` after the poll resolves:
a rejection propagates (there is no catch), an `error` state raises the
file-processing error, otherwise the content URL template of the
returned info is produced. -/
def resolvePolledURL (responses : List RepEntry) : Option (Except String String) :=
  match pollRepresentationInfo responses with
  | none => none
  | some (PollOutcome.threw e) => some (Except.error e)
  | some (PollOutcome.returned i) =>
    if i.state = "error" then some (Except.error SkillsErrorEnum_FILE_PROCESSING_ERROR)
    else some (Except.ok i.url_template)

/-- The dispatch of `getBasicFormatFileURL` on the initial
representation info (the URL-template expansion and access-token suffix
of the final `.then` are outside the polling property): a missing entry
or an `error`/unknown state raises the file-processing error, a
`success`/`viewable` state returns the template directly, and
`none`/`pending` enters the polling loop. -/
def getBasicFormatFileURL (initial : Option RepEntry) (polled : List RepEntry) :
    Option (Except String String) :=
  match initial with
  | none => some (Except.error SkillsErrorEnum_FILE_PROCESSING_ERROR)
  | some repInfo =>
    if repInfo.state = "success" ∨ repInfo.state = "viewable" then
      some (Except.ok repInfo.url_template)
    else if repInfo.state = "error" then
      some (Except.error SkillsErrorEnum_FILE_PROCESSING_ERROR)
    else if repInfo.state = "none" ∨ repInfo.state = "pending" then
      resolvePolledURL polled
    else
      some (Except.error SkillsErrorEnum_FILE_PROCESSING_ERROR)

/-! ## Cards (`SkillsWriter`) -/

/-- A raw entry of a data list handed to the card builders; `text` and
`image_url` may be absent. -/
structure DataEntry where
  text : Option String := none
  image_url : Option String := none
deriving DecidableEq

/-- A processed card entry: trimmed text, a type tag, and the (copied)
image URL. -/
structure CardEntry where
  text : String
  type : String
  image_url : Option String
deriving DecidableEq

structure ServiceRef where
  type : String
  id : String
deriving DecidableEq

structure SkillCardTitle where
  code : String
  message : String
deriving DecidableEq

structure StatusObj where
  code : Option String := none
  message : Option String := none
deriving DecidableEq

/-- A metadata card as assembled by `createMetadataCard`.  The
`created_at` wall-clock timestamp is outside the functional model and is
not represented. -/
structure MetadataCard where
  type : String
  skill : ServiceRef
  skill_card_type : String
  skill_card_title : SkillCardTitle
  invocation : ServiceRef
  status : StatusObj
  entries : Option (List CardEntry) := none
  duration : Option Rat := none
deriving DecidableEq

/-- The filter of `processDataList`: `data.text && data.text.trim()`. -/
def keepDataEntry (d : DataEntry) : Bool :=
  jsTruthy d.text && jsTruthy (d.text.map jsTrim)

/-- The map of `processDataList`: trim the text and tag the entry
`image` when `image_url` is a string, `text` otherwise. -/
def processDataEntry (d : DataEntry) : CardEntry :=
  { text := jsTrim (d.text.getD "")
    type := if d.image_url.isSome then "image" else "text"
    image_url := d.image_url }

/-- `processDataList` (the `duration`-dependent branch of the source
only emits a console warning and never changes the result; the library
always calls this helper without a duration). -/
def processDataList (dataList : List DataEntry) : List CardEntry :=
  (dataList.filter keepDataEntry).map processDataEntry

/-- The title code computed by `createMetadataCard`:
`` `skills_${title.toLowerCase()}`.replace(' ', '_') `` — a string
pattern, so only the first space is replaced. -/
def titleCode (title : String) : String :=
  jsReplaceFirst ("skills_" ++ jsToLowerCase title) " " "_"

/-- `createMetadataCard` (`skillId` and `requestId` come from the
`SkillsWriter` instance).  An `entries` array is attached whenever the
argument is defined; a duration is attached only when defined and
non-zero (`0` is falsy in JS). -/
def createMetadataCard (skillId requestId : String) (type title : String)
    (optionalStatus : StatusObj) (optionalEntries : Option (List CardEntry))
    (optionalFileDuration : Option Rat) : MetadataCard :=
  { type := "skill_card"
    skill := { type := "service", id := skillId }
    skill_card_type := type
    skill_card_title := { code := titleCode title, message := title }
    invocation := { type := "skill_invocation", id := requestId }
    status := optionalStatus
    entries := optionalEntries
    duration :=
      match optionalFileDuration with
      | some d => if d ≠ 0 then some d else none
      | none => none }

/-- The access `faceData.image_url` inside the `createFacesCard` loop:
`faceData` there is an `Object.entries` pair — a two-element JS array —
which has no `image_url` property, so the access yields `undefined`. -/
def pairImageUrl (faceData : String × CardEntry) : Option String := none

/-- The `jimp.read(url).then(resize + base64).catch(() => undefined)`
pipeline, abstracted over a fetch-and-resize oracle: `fetchResize u`
gives the data URI on success and `Option.none` on failure, and reading
`undefined` rejects, which the catch also maps to `undefined`. -/
def jimpThumbDataURI (fetchResize : String → Option String) (url : Option String) :
    Option String :=
  match url with
  | some u => fetchResize u
  | none => none

/-- `createFacesCard`: process the data list, build the timeline card
whose entries alias the processed list, kick off one fetch/resize per
`Object.entries` pair, then write `dataURIs[i] || entry.image_url` back
into each entry of the card. -/
def createFacesCard (fetchResize : String → Option String) (skillId requestId : String)
    (facesDataList : List DataEntry) (optionalFileDuration : Option Rat)
    (optionalCardTitle : Option String) : MetadataCard :=
  let facesDataListProcessed := processDataList facesDataList
  let cards := createMetadataCard skillId requestId "timeline"
    (jsOrDefault optionalCardTitle "Faces") {} (some facesDataListProcessed)
    optionalFileDuration
  let dataURIs := (objectEntries facesDataListProcessed).map
    (fun faceData => jimpThumbDataURI fetchResize (pairImageUrl faceData))
  let updated := (facesDataListProcessed.zip dataURIs).map
    (fun p => { p.1 with image_url := jsOrString p.2 p.1.image_url })
  { cards with entries := some updated }

/-! ## Result writing (`saveDataCards`, `saveErrorCard`) -/

structure Usage where
  unit : String
  value : Rat
deriving DecidableEq

def DEFAULT_USAGE : Usage := { unit := "files", value := 1 }

/-- `validateEnum(usage.unit, usageUnit) && Number.isInteger(usage.value)`
guarded by the truthiness of `usage` itself. -/
def validateUsage (usage : Option Usage) : Bool :=
  match usage with
  | none => false
  | some u => decide (u.unit ∈ usageUnitValues) && u.value.isInt

structure FileRef where
  type : String
  id : String
deriving DecidableEq

structure BodyMetadata where
  cards : List MetadataCard
deriving DecidableEq

/-- The body of the `PUT /skill_invocations/:skillId` request. -/
structure SkillInvocationBody where
  status : String
  file : FileRef
  metadata : BodyMetadata
  usage : Option Usage
deriving DecidableEq

/-- `saveDataCards` (`fileId` comes from the `SkillsWriter` instance;
the optional callback is I/O only): validate the status against the
closed enumeration, defaulting to `success`; attach a usage record only
for `success`, substituting the default one-file usage when the supplied
usage is absent or malformed; assemble the PUT body. -/
def saveDataCards (fileId : String) (listofDataCardJSONs : List MetadataCard)
    (optionalStatus : Option String) (optionalUsage : Option Usage) :
    SkillInvocationBody :=
  let status :=
    match optionalStatus with
    | some s => if s ∈ skillInvocationStatusValues then s else "success"
    | none => "success"
  let usage : Option Usage :=
    if status = "success" then
      if validateUsage optionalUsage then optionalUsage else some DEFAULT_USAGE
    else none
  { status := status
    file := { type := "file", id := fileId }
    metadata := { cards := listofDataCardJSONs }
    usage := usage }

/-- `saveErrorCard`: pick `transient_failure` only when explicitly
requested, normalize the error code against `SkillsErrorEnum` (falling
back to the unknown code), override with `custom_error` plus message
when a truthy custom message is supplied, and submit the single status
card through `saveDataCards`. -/
def saveErrorCard (fileId skillId requestId : String) (error : String)
    (optionalCustomErrorMessage : Option String) (optionalFailureType : Option String) :
    SkillInvocationBody :=
  let failureType :=
    if optionalFailureType = some "transient_failure" then "transient_failure"
    else "permanent_failure"
  let errorCode := if error ∈ SkillsErrorEnumValues then error else SkillsErrorEnum_UNKNOWN
  let errorObj : StatusObj :=
    match optionalCustomErrorMessage with
    | some m =>
      if m ≠ "" then { code := some "custom_error", message := some m }
      else { code := some errorCode }
    | none => { code := some errorCode }
  let errorCard := createMetadataCard skillId requestId "status" "Error" errorObj none none
  saveDataCards fileId [errorCard] (some failureType) none

/-! ## Theorems -/

/-- C10: for every file name, the lowercase extension is looked up in
the fixed audio set first, then the image set, then the video set, and
the first matching set determines the type (AUDIO, IMAGE, VIDEO
respectively); an extension in none of the three sets classifies as
DOCUMENT. -/
theorem getFileType_priority (fileName : String) :
    (getFileFormat fileName ∈ boxAudioFormats →
      getFileType (getFileFormat fileName) = "AUDIO") ∧
    (getFileFormat fileName ∉ boxAudioFormats →
      getFileFormat fileName ∈ boxImageFormats →
      getFileType (getFileFormat fileName) = "IMAGE") ∧
    (getFileFormat fileName ∉ boxAudioFormats →
      getFileFormat fileName ∉ boxImageFormats →
      getFileFormat fileName ∈ boxVideoFormats →
      getFileType (getFileFormat fileName) = "VIDEO") ∧
    (getFileFormat fileName ∉ boxAudioFormats →
      getFileFormat fileName ∉ boxImageFormats →
      getFileFormat fileName ∉ boxVideoFormats →
      getFileType (getFileFormat fileName) = "DOCUMENT") := by
  refine ⟨?_, ?_, ?_, ?_⟩ <;> intros <;> simp only [getFileType] <;> simp [*]

/-- Witness for `getFileType_priority` at four concrete file names, one
per extension set and one unsupported. -/
theorem getFileType_priority_witness :
    getFileType (getFileFormat "song.MP3") = "AUDIO" ∧
    getFileType (getFileFormat "pic.jpg") = "IMAGE" ∧
    getFileType (getFileFormat "clip.mov") = "VIDEO" ∧
    getFileType (getFileFormat "notes.xyz") = "DOCUMENT" :=
  ⟨(getFileType_priority "song.MP3").1 (by decide),
   (getFileType_priority "pic.jpg").2.1 (by decide) (by decide),
   (getFileType_priority "clip.mov").2.2.1 (by decide) (by decide) (by decide),
   (getFileType_priority "notes.xyz").2.2.2 (by decide) (by decide) (by decide)⟩

/-- C6: `processDataList` drops every entry whose text is absent, empty
or whitespace-only; each surviving entry comes from an input entry, has
that entry's trimmed non-empty text, keeps its image URL, and is tagged
`image` when the entry carries an image URL and `text` otherwise; on
`[{text: " a "}, {text: ""}, {text: "  "}]` it yields exactly the one
entry with text `"a"`. -/
theorem processDataList_spec (l : List DataEntry) :
    (∀ e ∈ processDataList l, ∃ d ∈ l, ∃ t, d.text = some t ∧ jsTrim t ≠ "" ∧
      e.text = jsTrim t ∧ e.image_url = d.image_url ∧
      e.type = (if d.image_url.isSome then "image" else "text")) ∧
    (∀ d, (d.text = none ∨ jsTrim (d.text.getD "") = "") →
      processDataList (d :: l) = processDataList l) ∧
    processDataList [{ text := some " a " }, { text := some "" }, { text := some "  " }] =
      [{ text := "a", type := "text", image_url := none }] := by
  refine ⟨?_, ?_, by decide⟩
  · intro e he
    simp only [processDataList, List.mem_map, List.mem_filter] at he
    obtain ⟨d, ⟨hdl, hkeep⟩, rfl⟩ := he
    refine ⟨d, hdl, ?_⟩
    simp only [keepDataEntry, Bool.and_eq_true] at hkeep
    obtain ⟨h1, h2⟩ := hkeep
    cases htext : d.text with
    | none => rw [htext] at h1; simp [jsTruthy] at h1
    | some t =>
      rw [htext] at h2
      simp only [Option.map_some, jsTruthy, bne_iff_ne, ne_eq, decide_eq_true_eq] at h2
      exact ⟨t, rfl, by simpa using h2, by simp [processDataEntry, htext],
        by simp [processDataEntry], by simp [processDataEntry]⟩
  · intro d hd
    have hkeep : keepDataEntry d = false := by
      rcases hd with h | h
      · simp [keepDataEntry, h, jsTruthy]
      · cases htext : d.text with
        | none => simp [keepDataEntry, htext, jsTruthy]
        | some t =>
          rw [htext] at h
          simp only [Option.getD_some] at h
          simp [keepDataEntry, htext, jsTruthy, h]
    simp [processDataList, hkeep]

/-- Witness for `processDataList_spec`: the concrete three-entry example
and the dropping of a concrete whitespace-only entry. -/
theorem processDataList_spec_witness :
    processDataList [{ text := some " a " }, { text := some "" }, { text := some "  " }] =
      [{ text := "a", type := "text", image_url := none }] ∧
    processDataList ({ text := some "  " } :: [{ text := some "x" }]) =
      processDataList [{ text := some "x" }] :=
  ⟨(processDataList_spec []).2.2,
   (processDataList_spec [{ text := some "x" }]).2.1 { text := some "  " }
     (Or.inr (by decide))⟩

/-- C8 counterexample: the spec enumerates `pending` among the accepted
invocation statuses, but the code enumeration carries
`skills_pending_status` instead, so `saveDataCards` does not persist
`pending` unchanged — it substitutes `success`. -/
theorem saveDataCards_pending_counterexample :
    (saveDataCards "f" [] (some "pending") none).status = "success" ∧
    "pending" ∉ skillInvocationStatusValues ∧
    "skills_pending_status" ∈ skillInvocationStatusValues := by decide

/-- C8 amended: every member of the code's closed invocation-status
enumeration — invoked, processing, skills_pending_status,
transient_failure, permanent_failure, success — is accepted by
`saveDataCards` and persisted unchanged in the PUT body; the plain
string `pending` is not in the enumeration and is replaced by the
`success` default. -/
theorem saveDataCards_enum_statuses (s : String) (fileId : String)
    (cards : List MetadataCard) (usage : Option Usage)
    (hs : s ∈ skillInvocationStatusValues) :
    (saveDataCards fileId cards (some s) usage).status = s ∧
    (saveDataCards fileId cards (some "pending") usage).status = "success" := by
  constructor
  · simp [saveDataCards, hs]
  · simp [saveDataCards, skillInvocationStatusValues]

/-- Witness for `saveDataCards_enum_statuses` at the
`skills_pending_status` member. -/
theorem saveDataCards_enum_statuses_witness :
    (saveDataCards "f" [] (some "skills_pending_status") none).status =
      "skills_pending_status" ∧
    (saveDataCards "f" [] (some "pending") none).status = "success" :=
  saveDataCards_enum_statuses "skills_pending_status" "f" [] none (by decide)

/-- Number of space characters in a character list. -/
def countSpaces : List Char → Nat
  | [] => 0
  | c :: cs => (if c = ' ' then 1 else 0) + countSpaces cs

/-- ASCII lowercasing maps no character to a space and keeps spaces. -/
theorem toLower_eq_space_iff (c : Char) : Char.toLower c = ' ' ↔ c = ' ' := by
  constructor
  · intro h
    unfold Char.toLower at h
    simp only [] at h
    by_cases hc : c.toNat ≥ 65 ∧ c.toNat ≤ 90
    · rw [if_pos hc] at h
      exfalso
      have hv : (Char.ofNat (c.toNat + 32)).toNat = c.toNat + 32 := by
        unfold Char.ofNat
        rw [dif_pos]
        · rfl
        · left; omega
      rw [h] at hv
      have h32 : (' ' : Char).toNat = 32 := by decide
      omega
    · rw [if_neg hc] at h
      exact h
  · intro h; subst h; decide

theorem countSpaces_map_toLower (l : List Char) :
    countSpaces (l.map Char.toLower) = countSpaces l := by
  induction l with
  | nil => rfl
  | cons c cs ih =>
    simp only [List.map_cons, countSpaces, ih]
    by_cases hc : c = ' '
    · rw [if_pos hc, if_pos ((toLower_eq_space_iff c).mpr hc)]
    · rw [if_neg hc, if_neg (fun h => hc ((toLower_eq_space_iff c).mp h))]

theorem countSpaces_append (x y : List Char) :
    countSpaces (x ++ y) = countSpaces x + countSpaces y := by
  induction x with
  | nil => simp [countSpaces]
  | cons c cs ih =>
    simp only [List.cons_append, List.append_eq, countSpaces, ih]
    omega

theorem countSpaces_replaceFirst (l : List Char) :
    countSpaces (replaceFirstChars [' '] ['_'] l) = countSpaces l - 1 := by
  induction l with
  | nil => rfl
  | cons c cs ih =>
    by_cases hc : c = ' '
    · subst hc
      have hp : [' '].isPrefixOf (' ' :: cs) = true := by
        simp [List.isPrefixOf]
      simp [replaceFirstChars, hp, countSpaces]
    · simp only [replaceFirstChars]
      split
      · rename_i hcond
        exfalso
        simp [List.isPrefixOf] at hcond
        exact hc hcond.symm
      · simp only [countSpaces, if_neg hc, ih]
        omega

theorem replaceFirst_append_no_space (a r : List Char) (ha : ' ' ∉ a) :
    replaceFirstChars [' '] ['_'] (a ++ r) = a ++ replaceFirstChars [' '] ['_'] r := by
  induction a with
  | nil => rfl
  | cons c cs ih =>
    have hc : c ≠ ' ' := fun h => ha (h ▸ List.mem_cons_self c cs)
    simp only [List.cons_append, replaceFirstChars]
    split
    · rename_i hcond
      exfalso
      simp [List.isPrefixOf] at hcond
      exact hc hcond.symm
    · simp only [List.append_eq]
      rw [ih (fun h => ha (List.mem_cons_of_mem c h))]

/-- C9 counterexample: the title code of `"My Cool Title"` still
contains a space — JS `replace` with a string pattern rewrites only the
first space, so "no space from the title remains in the code" fails. -/
theorem titleCode_space_counterexample :
    titleCode "My Cool Title" = "skills_my_cool title" ∧
    ' ' ∈ (titleCode "My Cool Title").data := by decide

/-- C9 amended: the title code is derived deterministically from the
title text by lowercasing it, prefixing it with `skills_`, and replacing
its *first* space with an underscore; two calls with the same title
produce the same code, and exactly one space is removed (a title with at
most one space yields a code with none, further spaces remain). -/
theorem titleCode_spec (title : String) :
    (∀ t2, t2 = title → titleCode t2 = titleCode title) ∧
    countSpaces (titleCode title).data = countSpaces title.data - 1 ∧
    (titleCode title).data.take 7 = "skills_".data := by
  have hdata : (titleCode title).data =
      replaceFirstChars [' '] ['_'] ("skills_".data ++ title.data.map Char.toLower) := by
    simp [titleCode, jsReplaceFirst, jsToLowerCase, String.data_append]
  refine ⟨fun t2 h => by rw [h], ?_, ?_⟩
  · rw [hdata, countSpaces_replaceFirst, countSpaces_append, countSpaces_map_toLower]
    have h0 : countSpaces "skills_".data = 0 := by decide
    omega
  · rw [hdata, replaceFirst_append_no_space _ _ (by decide)]
    have h7 : ("skills_".data).length = 7 := by decide
    rw [← h7, List.take_left]

/-- Witness for `titleCode_spec` at the single-space title `"My Faces"`:
its code has no space. -/
theorem titleCode_spec_witness :
    titleCode "My Faces" = titleCode "My Faces" ∧
    countSpaces (titleCode "My Faces").data = countSpaces "My Faces".data - 1 ∧
    countSpaces (titleCode "My Faces").data = 0 :=
  ⟨(titleCode_spec "My Faces").1 "My Faces" rfl,
   (titleCode_spec "My Faces").2.1, by decide⟩

/-- C2: `saveDataCards` persists `success` whenever the supplied status
is outside the closed invocation-status enumeration; the PUT body
carries a usage record exactly when the persisted status is `success`,
in which case an absent or malformed usage argument is replaced by the
default one-file usage (and a valid one is kept); the body has shape
`{status, file: {type, id}, metadata: {cards}, usage}`. -/
theorem saveDataCards_spec (fileId : String) (cards : List MetadataCard)
    (optionalStatus : Option String) (optionalUsage : Option Usage) :
    ((∀ s, optionalStatus = some s → s ∉ skillInvocationStatusValues) →
      (saveDataCards fileId cards optionalStatus optionalUsage).status = "success") ∧
    ((saveDataCards fileId cards optionalStatus optionalUsage).usage.isSome = true ↔
      (saveDataCards fileId cards optionalStatus optionalUsage).status = "success") ∧
    ((saveDataCards fileId cards optionalStatus optionalUsage).status = "success" →
      validateUsage optionalUsage = false →
      (saveDataCards fileId cards optionalStatus optionalUsage).usage = some DEFAULT_USAGE) ∧
    ((saveDataCards fileId cards optionalStatus optionalUsage).status = "success" →
      validateUsage optionalUsage = true →
      (saveDataCards fileId cards optionalStatus optionalUsage).usage = optionalUsage) ∧
    (saveDataCards fileId cards optionalStatus optionalUsage).file =
      { type := "file", id := fileId } ∧
    (saveDataCards fileId cards optionalStatus optionalUsage).metadata =
      { cards := cards } := by
  have husg : (saveDataCards fileId cards optionalStatus optionalUsage).usage =
      (if (saveDataCards fileId cards optionalStatus optionalUsage).status = "success" then
        (if validateUsage optionalUsage then optionalUsage else some DEFAULT_USAGE)
       else none) := rfl
  refine ⟨?_, ?_, ?_, ?_, rfl, rfl⟩
  · intro h
    cases hos : optionalStatus with
    | none => rfl
    | some s =>
      have hs := h s hos
      simp [saveDataCards, hs]
  · rw [husg]
    by_cases hst : (saveDataCards fileId cards optionalStatus optionalUsage).status =
        "success"
    · rw [if_pos hst]
      simp only [hst, iff_true]
      by_cases hval : validateUsage optionalUsage = true
      · rw [if_pos hval]
        cases optionalUsage with
        | none => simp [validateUsage] at hval
        | some u => rfl
      · rw [if_neg hval]; rfl
    · rw [if_neg hst]
      simp [hst]
  · intro hst hval
    rw [husg, if_pos hst, if_neg (by simp [hval])]
  · intro hst hval
    rw [husg, if_pos hst, if_pos hval]

/-- Witness for `saveDataCards_spec` at an unrecognized status and an
absent usage. -/
theorem saveDataCards_spec_witness :
    (saveDataCards "f1" [] (some "bogus") none).status = "success" ∧
    (saveDataCards "f1" [] (some "bogus") none).usage = some DEFAULT_USAGE :=
  ⟨(saveDataCards_spec "f1" [] (some "bogus") none).1
     (fun s hs => by cases hs; decide),
   (saveDataCards_spec "f1" [] (some "bogus") none).2.2.1 (by decide) (by decide)⟩

/-- C5: `saveErrorCard` stores the error argument as the card status
code when it belongs to the closed error enumeration and the unknown
error code otherwise; a truthy custom message forces code `custom_error`
with that message regardless of the error argument; the submitted
invocation status is `transient_failure` exactly when the caller passes
`transient_failure` as failure type, `permanent_failure` otherwise; the
result is a single status card submission. -/
theorem saveErrorCard_spec (fileId skillId requestId error : String)
    (msg failureType : Option String) :
    (saveErrorCard fileId skillId requestId error msg failureType).status =
      (if failureType = some "transient_failure" then "transient_failure"
       else "permanent_failure") ∧
    (saveErrorCard fileId skillId requestId error msg failureType).metadata.cards.length
      = 1 ∧
    ∀ c ∈ (saveErrorCard fileId skillId requestId error msg failureType).metadata.cards,
      c.skill_card_type = "status" ∧ c.skill_card_title.message = "Error" ∧
      ((msg = none ∨ msg = some "") →
        c.status = { code := some (if error ∈ SkillsErrorEnumValues then error
                                   else SkillsErrorEnum_UNKNOWN) }) ∧
      (∀ m, msg = some m → m ≠ "" →
        c.status = { code := some "custom_error", message := some m }) := by
  have hcards : ((saveErrorCard fileId skillId requestId error msg
      failureType).metadata).cards =
      [createMetadataCard skillId requestId "status" "Error"
        (match msg with
         | some m =>
           if m ≠ "" then { code := some "custom_error", message := some m }
           else { code := some (if error ∈ SkillsErrorEnumValues then error
                                else SkillsErrorEnum_UNKNOWN) }
         | none => { code := some (if error ∈ SkillsErrorEnumValues then error
                                   else SkillsErrorEnum_UNKNOWN) }) none none] := rfl
  refine ⟨?_, ?_, ?_⟩
  · by_cases hft : failureType = some "transient_failure" <;>
      simp [saveErrorCard, saveDataCards, hft, skillInvocationStatusValues]
  · rw [hcards]; rfl
  · intro c hc
    rw [hcards, List.mem_singleton] at hc
    subst hc
    cases msg with
    | none => exact ⟨rfl, rfl, fun _ => rfl, fun m hm _ => by cases hm⟩
    | some m =>
      by_cases hm : m = ""
      · subst hm
        refine ⟨rfl, rfl, fun _ => ?_, fun m2 hm2 hne => ?_⟩
        · simp [createMetadataCard]
        · cases hm2; exact absurd rfl hne
      · refine ⟨rfl, rfl, ?_, ?_⟩
        · rintro (h | h)
          · cases h
          · cases h; exact absurd rfl hm
        · rintro m2 hm2 hne
          cases hm2
          simp [createMetadataCard, hm]

/-- Witness for `saveErrorCard_spec`: an unrecognized error code with no
message stores the unknown code, and a custom message forces
`custom_error`. -/
theorem saveErrorCard_spec_witness :
    (saveErrorCard "f" "s" "r" "bogus" none none).status = "permanent_failure" ∧
    (∀ c ∈ (saveErrorCard "f" "s" "r" "bogus" none none).metadata.cards,
      c.status = { code := some "skills_unknown_error" }) ∧
    (∀ c ∈ (saveErrorCard "f" "s" "r" "bogus" (some "oops") none).metadata.cards,
      c.status = { code := some "custom_error", message := some "oops" }) := by
  refine ⟨?_, ?_, ?_⟩
  · have h := (saveErrorCard_spec "f" "s" "r" "bogus" none none).1
    simpa using h
  · intro c hc
    have h := ((saveErrorCard_spec "f" "s" "r" "bogus" none none).2.2 c hc).2.2.1
      (Or.inl rfl)
    simpa using h
  · intro c hc
    exact ((saveErrorCard_spec "f" "s" "r" "bogus" (some "oops") none).2.2 c hc).2.2.2
      "oops" rfl (by decide)

/-- An event body in which the source id, the source size and both
access-token strings are absent, while the objects containing them are
present. -/
def eventMissingIdsAndTokens : EventBody :=
  { id := some "req1"
    skill := some { id := some "123" }
    source := some { id := none, name := some "doc.pdf", size := none }
    token := some { read := some { access_token := none }
                    write := some { access_token := none } } }

/-- An event body whose skill object is absent. -/
def eventMissingSkill : EventBody :=
  { id := some "req2"
    skill := none
    source := some { id := some "f1", name := some "doc.pdf", size := some 10 }
    token := some { read := some { access_token := some "r" }
                    write := some { access_token := some "w" } } }

/-- An event body with every field present. -/
def eventComplete : EventBody :=
  { id := some "req3"
    skill := some { id := some "456" }
    source := some { id := some "f2", name := some "track.mp3", size := some 42 }
    token := some { read := some { access_token := some "r" }
                    write := some { access_token := some "w" } } }

/-- C7 counterexample: an event body whose source id, source size and
access-token strings are all absent still constructs successfully, and a
body whose skill object is absent fails with a plain `TypeError`, not
with the typed invalid-event error of the error enumeration. -/
theorem FilesReader_invalid_event_counterexample :
    (FilesReader eventMissingIdsAndTokens).isOk = true ∧
    FilesReader eventMissingSkill = Except.error "TypeError" ∧
    "TypeError" ≠ SkillsErrorEnum_INVALID_EVENT := by decide

/-- C7 amended: constructing the FileContext fails exactly when the
skill object, the skill id, the source object, the source name, the
token object, or one of its read/write members is absent, and the
failure is a generic `TypeError` from reading a property of `undefined`
— never the typed invalid-event error, which the library defines but
never raises; absence of the source id, the source size, or the
access-token strings does not cause a failure. -/
theorem FilesReader_validation (body : EventBody) :
    ((FilesReader body).isOk = true ↔
      ((body.skill.bind (fun sk => sk.id)).isSome = true ∧
       (body.source.bind (fun src => src.name)).isSome = true ∧
       (body.token.bind (fun tk => tk.read)).isSome = true ∧
       (body.token.bind (fun tk => tk.write)).isSome = true)) ∧
    (∀ e, FilesReader body = Except.error e → e = JS_TYPE_ERROR) := by
  obtain ⟨bid, bskill, bsource, btoken⟩ := body
  cases bskill with
  | none =>
    exact ⟨by simp [FilesReader, Except.isOk, Except.toBool], fun e he => by
      simp only [FilesReader] at he
      simpa [JS_TYPE_ERROR, eq_comm] using he⟩
  | some sk =>
    obtain ⟨skid⟩ := sk
    cases skid with
    | none =>
      exact ⟨by simp [FilesReader, Except.isOk, Except.toBool], fun e he => by
        simp only [FilesReader] at he
        simpa [JS_TYPE_ERROR, eq_comm] using he⟩
    | some s =>
      cases bsource with
      | none =>
        exact ⟨by simp [FilesReader, Except.isOk, Except.toBool], fun e he => by
          simp only [FilesReader] at he
          simpa [JS_TYPE_ERROR, eq_comm] using he⟩
      | some src =>
        obtain ⟨sid, sname, ssize⟩ := src
        cases sname with
        | none =>
          exact ⟨by simp [FilesReader, Except.isOk, Except.toBool], fun e he => by
            simp only [FilesReader] at he
            simpa [JS_TYPE_ERROR, eq_comm] using he⟩
        | some nm =>
          cases btoken with
          | none =>
            exact ⟨by simp [FilesReader, Except.isOk, Except.toBool], fun e he => by
              simp only [FilesReader] at he
              simpa [JS_TYPE_ERROR, eq_comm] using he⟩
          | some tk =>
            obtain ⟨trd, twr⟩ := tk
            cases trd with
            | none =>
              exact ⟨by simp [FilesReader, Except.isOk, Except.toBool], fun e he => by
                simp only [FilesReader] at he
                simpa [JS_TYPE_ERROR, eq_comm] using he⟩
            | some rd =>
              cases twr with
              | none =>
                exact ⟨by simp [FilesReader, Except.isOk, Except.toBool], fun e he => by
                  simp only [FilesReader] at he
                  simpa [JS_TYPE_ERROR, eq_comm] using he⟩
              | some wr =>
                exact ⟨by simp [FilesReader, Except.isOk, Except.toBool], fun e he => by
                  simp only [FilesReader] at he
                  cases he⟩

/-- Witness for `FilesReader_validation`: a complete event body
constructs successfully, and the missing-skill failure carries the
`TypeError` tag. -/
theorem FilesReader_validation_witness :
    (FilesReader eventComplete).isOk = true ∧ "TypeError" = JS_TYPE_ERROR :=
  ⟨(FilesReader_validation eventComplete).1.mpr (by decide),
   (FilesReader_validation eventMissingSkill).2 "TypeError" (by decide)⟩

/-- Writing back `dataURIs[i] || entry.image_url` is the identity when
every data URI is `undefined`. -/
theorem updateLoop_id (p : List CardEntry) (uris : List (Option String))
    (h : ∀ u ∈ uris, u = none) (hlen : uris.length = p.length) :
    (p.zip uris).map (fun q => { q.1 with image_url := jsOrString q.2 q.1.image_url })
      = p := by
  induction p generalizing uris with
  | nil => simp
  | cons e es ih =>
    cases uris with
    | nil => simp at hlen
    | cons u us =>
      have hu : u = none := h u (List.mem_cons_self u us)
      subst hu
      simp only [List.zip_cons_cons, List.map_cons]
      refine congrArg₂ _ rfl ?_
      exact ih us (fun v hv => h v (List.mem_cons_of_mem none hv)) (by simpa using hlen)

/-- Every data URI computed by the `createFacesCard` fan-out is
`undefined` (the loop reads `.image_url` off the `Object.entries`
pairs), so the card is the plain timeline card over the processed list,
for every fetch oracle. -/
theorem createFacesCard_eq (fetchResize : String → Option String)
    (skillId requestId : String) (l : List DataEntry) (dur : Option Rat)
    (title : Option String) :
    createFacesCard fetchResize skillId requestId l dur title =
      { createMetadataCard skillId requestId "timeline" (jsOrDefault title "Faces")
          {} (some (processDataList l)) dur with
        entries := some (processDataList l) } := by
  have h := updateLoop_id (processDataList l)
    ((objectEntries (processDataList l)).map
      (fun faceData => jimpThumbDataURI fetchResize (pairImageUrl faceData)))
    (by
      intro u hu
      simp only [List.mem_map] at hu
      obtain ⟨p, _, rfl⟩ := hu
      rfl)
    (by simp [objectEntries, List.enum_length])
  calc createFacesCard fetchResize skillId requestId l dur title
      = { createMetadataCard skillId requestId "timeline" (jsOrDefault title "Faces")
            {} (some (processDataList l)) dur with
          entries := some (((processDataList l).zip
            ((objectEntries (processDataList l)).map
              (fun faceData => jimpThumbDataURI fetchResize (pairImageUrl faceData)))).map
            (fun p => { p.1 with image_url := jsOrString p.2 p.1.image_url })) } := rfl
    _ = _ := by rw [h]

/-- The entries of the returned faces card are exactly the processed
input list, whatever the fetch oracle does. -/
theorem createFacesCard_entries (fetchResize : String → Option String)
    (skillId requestId : String) (l : List DataEntry) (dur : Option Rat)
    (title : Option String) :
    (createFacesCard fetchResize skillId requestId l dur title).entries =
      some (processDataList l) := by
  rw [createFacesCard_eq]

/-- C3 (refuted, code bug): the enrichment never happens — for every
fetch oracle the returned card keeps every entry's original image URL,
because the loop iterates `Object.entries` pairs and reads `.image_url`
off the pair, which is always `undefined`; in particular one entry whose
image URL fetches and resizes successfully is still returned with its
original URL instead of the data URI. -/
theorem createFacesCard_no_enrichment :
    (∀ (fetchResize : String → Option String) (skillId requestId : String)
      (l : List DataEntry) (dur : Option Rat) (title : Option String),
      (createFacesCard fetchResize skillId requestId l dur title).entries =
        some (processDataList l)) ∧
    (createFacesCard
        (fun u => if u = "https://img.example/x.png"
                  then some "data:image/png;base64,AAA" else none)
        "s" "r" [{ text := some "Bob", image_url := some "https://img.example/x.png" }]
        none none).entries =
      some [{ text := "Bob", type := "image",
              image_url := some "https://img.example/x.png" }] :=
  ⟨fun fetchResize skillId requestId l dur title =>
     createFacesCard_entries fetchResize skillId requestId l dur title,
   by decide⟩

/-- C4: a failure of any single entry's fetch/resize never prevents the
card — the card is produced for every fetch oracle and is even
independent of it, each kept entry appears in the card's entries, and
its image URL is the original one unchanged. -/
theorem createFacesCard_partial_failure (fetchResize fetchResize2 : String → Option String)
    (skillId requestId : String) (l : List DataEntry) (dur : Option Rat)
    (title : Option String) (d : DataEntry) (hd : d ∈ l)
    (hkeep : keepDataEntry d = true) :
    processDataEntry d ∈
      ((createFacesCard fetchResize skillId requestId l dur title).entries.getD []) ∧
    (processDataEntry d).image_url = d.image_url ∧
    createFacesCard fetchResize skillId requestId l dur title =
      createFacesCard fetchResize2 skillId requestId l dur title := by
  refine ⟨?_, rfl, ?_⟩
  · rw [createFacesCard_entries]
    simp only [Option.getD_some, processDataList, List.mem_map]
    exact ⟨d, List.mem_filter.mpr ⟨hd, hkeep⟩, rfl⟩
  · rw [createFacesCard_eq fetchResize, createFacesCard_eq fetchResize2]

/-- Witness for `createFacesCard_partial_failure`: a single entry whose
fetch always fails is kept with its original URL. -/
theorem createFacesCard_partial_failure_witness :
    processDataEntry { text := some "Bob", image_url := some "https://img.example/x.png" } ∈
      ((createFacesCard (fun _ => none) "s" "r"
        [{ text := some "Bob", image_url := some "https://img.example/x.png" }]
        none none).entries.getD []) ∧
    (processDataEntry
        { text := some "Bob", image_url := some "https://img.example/x.png" }).image_url =
      some "https://img.example/x.png" :=
  ⟨(createFacesCard_partial_failure (fun _ => none) (fun _ => some "data:x") "s" "r"
      [{ text := some "Bob", image_url := some "https://img.example/x.png" }] none none
      { text := some "Bob", image_url := some "https://img.example/x.png" }
      (List.mem_singleton.mpr rfl) (by decide)).1,
   (createFacesCard_partial_failure (fun _ => none) (fun _ => some "data:x") "s" "r"
      [{ text := some "Bob", image_url := some "https://img.example/x.png" }] none none
      { text := some "Bob", image_url := some "https://img.example/x.png" }
      (List.mem_singleton.mpr rfl) (by decide)).2.1⟩

/-- A scripted info sequence of two pendings then a success, with
distinct URL templates per response. -/
def pendingRep1 : RepEntry := { state := "pending", url_template := "https://dl.example/u1" }

def pendingRep2 : RepEntry := { state := "pending", url_template := "https://dl.example/u2" }

def successRep3 : RepEntry := { state := "success", url_template := "https://dl.example/u3" }

/-- C1 (refuted, code bug): at the first `none`/`pending` response the
poller does not wait 1000 ms and re-query — the source calls
`Promise.delay(1000)`, but bluebird is never imported and the native
`Promise` has no `delay` method, so the callback throws a `TypeError`
and the poll rejects at once, not even with the file-processing error;
later responses are never requested, so `[pending, pending, success]`
rejects with the TypeError instead of resolving to the third response's
content URL template.  The terminal states do behave as specified:
`success`/`viewable` make the caller return that response's content URL
template, and `error` or an unrecognized state raises the
file-processing error; `getBasicFormatFileURL` enters the loop exactly
when the initial state is `none`/`pending` and then rejects with the
same TypeError. -/
theorem pollRepresentationInfo_pending_rejects (info : RepEntry) (rest : List RepEntry) :
    ((info.state = "none" ∨ info.state = "pending") →
      pollRepresentationInfo (info :: rest) = some (PollOutcome.threw JS_TYPE_ERROR) ∧
      resolvePolledURL (info :: rest) = some (Except.error JS_TYPE_ERROR) ∧
      getBasicFormatFileURL (some info) (info :: rest) =
        some (Except.error JS_TYPE_ERROR) ∧
      JS_TYPE_ERROR ≠ SkillsErrorEnum_FILE_PROCESSING_ERROR) ∧
    ((info.state = "success" ∨ info.state = "viewable") →
      pollRepresentationInfo (info :: rest) = some (PollOutcome.returned info) ∧
      resolvePolledURL (info :: rest) = some (Except.ok info.url_template)) ∧
    (info.state = "error" →
      resolvePolledURL (info :: rest) =
        some (Except.error SkillsErrorEnum_FILE_PROCESSING_ERROR)) ∧
    (info.state ∉ ["success", "viewable", "error", "none", "pending"] →
      pollRepresentationInfo (info :: rest) =
        some (PollOutcome.threw SkillsErrorEnum_FILE_PROCESSING_ERROR)) ∧
    pollRepresentationInfo [pendingRep1, pendingRep2, successRep3] =
      some (PollOutcome.threw JS_TYPE_ERROR) ∧
    resolvePolledURL [pendingRep1, pendingRep2, successRep3] =
      some (Except.error JS_TYPE_ERROR) := by
  refine ⟨?_, ?_, ?_, ?_, by decide, by decide⟩
  · intro hp
    have h1 : ¬(info.state = "success" ∨ info.state = "viewable" ∨ info.state = "error") := by
      rcases hp with h | h <;> simp [h]
    have hpoll : pollRepresentationInfo (info :: rest) =
        some (PollOutcome.threw JS_TYPE_ERROR) := by
      simp [pollRepresentationInfo, h1, hp]
    have hres : resolvePolledURL (info :: rest) = some (Except.error JS_TYPE_ERROR) := by
      simp [resolvePolledURL, hpoll]
    have hns : ¬(info.state = "success" ∨ info.state = "viewable") := by
      rcases hp with h | h <;> simp [h]
    have hne : ¬info.state = "error" := by
      rcases hp with h | h <;> simp [h]
    exact ⟨hpoll, hres, by simp [getBasicFormatFileURL, hns, hne, hp, hres], by decide⟩
  · intro hf
    have hterm : info.state = "success" ∨ info.state = "viewable" ∨ info.state = "error" := by
      rcases hf with h | h
      · exact Or.inl h
      · exact Or.inr (Or.inl h)
    have hpoll : pollRepresentationInfo (info :: rest) =
        some (PollOutcome.returned info) := by
      simp [pollRepresentationInfo, hterm]
    have hnerr : ¬info.state = "error" := by
      rcases hf with h | h <;> simp [h]
    exact ⟨hpoll, by simp [resolvePolledURL, hpoll, hnerr]⟩
  · intro hf
    have hpoll : pollRepresentationInfo (info :: rest) =
        some (PollOutcome.returned info) := by
      simp [pollRepresentationInfo, hf]
    simp [resolvePolledURL, hpoll, hf]
  · intro hf
    simp only [List.mem_cons, List.mem_singleton, not_or] at hf
    obtain ⟨h1, h2, h3, h4, h5⟩ := hf
    simp [pollRepresentationInfo, h1, h2, h3, h4, h5]

/-- Witness for `pollRepresentationInfo_pending_rejects` at the
scripted sequence `[pending, pending, success]` and at a lone success
response. -/
theorem pollRepresentationInfo_pending_rejects_witness :
    pollRepresentationInfo [pendingRep1, pendingRep2, successRep3] =
      some (PollOutcome.threw JS_TYPE_ERROR) ∧
    resolvePolledURL [pendingRep1, pendingRep2, successRep3] =
      some (Except.error JS_TYPE_ERROR) ∧
    resolvePolledURL [successRep3] = some (Except.ok successRep3.url_template) :=
  ⟨((pollRepresentationInfo_pending_rejects pendingRep1 [pendingRep2, successRep3]).1
      (Or.inr rfl)).1,
   ((pollRepresentationInfo_pending_rejects pendingRep1 [pendingRep2, successRep3]).1
      (Or.inr rfl)).2.1,
   ((pollRepresentationInfo_pending_rejects successRep3 []).2.1 (Or.inl rfl)).2⟩
